import Mathlib

/-!
Verification development for the Statusphere example application
(firehose ingestion pipeline, follow sync, profile cache).

The TypeScript source is shallowly embedded:

* SQLite tables (`status`, `profile`, `follow`) become lists of row
  structures; the primary-key upserts (`insertInto ... onConflict ...
  doUpdateSet`) become explicit insert-or-update functions on those lists.
* Timestamps (`indexedAt`, `Date.now()`) are modelled as natural numbers
  of milliseconds; ISO-8601 strings of a fixed format compare consistently
  with their numeric instants, so `orderBy indexedAt desc` becomes taking
  the maximum.  Author-asserted `createdAt` strings are kept opaque.
* The remote network is passed in as data: the paginated
  `listRecords` responses as a list of `Except`-valued pages, the
  identity-resolution and `getRecord` results as optional values.
* `try/catch` bodies become total functions returning the unchanged state
  together with an outcome tag (the tag models the log entry written by
  the handler).
* Schema validation (`Status.isRecord` / `validateRecord`, generated
  lexicon code outside the repository sources) is modelled by a `valid`
  verdict carried on the payload.
-/

namespace Statusphere

/-- Row of the `status` table (src/db.ts migration 001).  `indexedAt` is in
milliseconds. -/
structure StatusRow where
  uri : String
  authorDid : String
  status : String
  createdAt : String
  indexedAt : Nat
  deriving Repr, DecidableEq

/-- Row of the `profile` table (src/db.ts migration 002).  Nullable columns
are `Option`s. -/
structure ProfileRow where
  did : String
  displayName : Option String
  description : Option String
  avatarCid : Option String
  avatarMimeType : Option String
  bannerCid : Option String
  bannerMimeType : Option String
  indexedAt : Nat
  deriving Repr, DecidableEq

/-- Row of the `follow` table (src/db.ts migration 003). -/
structure FollowRow where
  uri : String
  authorDid : String
  subjectDid : String
  indexedAt : Nat
  deriving Repr, DecidableEq

/-- The cache tables of the SQLite database (auth tables are out of scope). -/
structure Db where
  status : List StatusRow
  profile : List ProfileRow
  follow : List FollowRow
  deriving Repr, DecidableEq

/-! ## Event stream subscriber (src/ingester.ts) -/

inductive EventKind where
  | create
  | update
  | delete
  deriving Repr, DecidableEq

/-- Payload of a status record on a create/update event.  `valid` is the
verdict of `Status.isRecord record && Status.validateRecord(record).success`
(generated lexicon code, outside the embedded sources). -/
structure StatusRecordPayload where
  status : String
  createdAt : String
  valid : Bool
  deriving Repr, DecidableEq

/-- A decoded firehose event as delivered to `handleEvent`. -/
structure Event where
  event : EventKind
  did : String
  collection : String
  uri : String
  record : Option StatusRecordPayload
  deriving Repr, DecidableEq

/-- The `insertInto('status').values(..).onConflict(oc.column('uri')
.doUpdateSet({status, indexedAt}))` statement: insert the full row when the
key is absent; when a row with the same `uri` exists, overwrite only the
`status` and `indexedAt` columns. -/
def statusUpsert (tbl : List StatusRow) (uri authorDid status createdAt : String)
    (now : Nat) : List StatusRow :=
  if tbl.any fun r => r.uri == uri then
    tbl.map fun r =>
      if r.uri == uri then { r with status := status, indexedAt := now } else r
  else
    tbl ++ [⟨uri, authorDid, status, createdAt, now⟩]

/-- The `selectFrom('profile').where('did','=',did)` existence check. -/
def profileExists (tbl : List ProfileRow) (did : String) : Bool :=
  tbl.any fun r => r.did == did

/-- Result of one `handleEvent` call: the database afterwards, and the DID
for which a fire-and-forget `fetchAndCacheProfile` task was spawned (if
any).  The spawned task runs asynchronously and is not part of the
handler's own state transition. -/
structure HandleResult where
  db : Db
  spawned : Option String
  deriving Repr, DecidableEq

/-- `handleEvent` of the Firehose built by `createIngester`
(src/ingester.ts).  Mirrors the source: a valid status create/update is
upserted by `uri`; afterwards, if the author has no cached profile, a
background profile fetch is spawned; a status delete removes the row by
`uri`; everything else leaves the database untouched. -/
def handleEvent (db : Db) (evt : Event) (now : Nat) : HandleResult :=
  if evt.event == .create || evt.event == .update then
    match evt.record with
    | some record =>
      if evt.collection == "xyz.statusphere.status" && record.valid then
        { db := { db with
            status := statusUpsert db.status evt.uri evt.did record.status
              record.createdAt now }
          spawned := if profileExists db.profile evt.did then none else some evt.did }
      else
        { db := db, spawned := none }
    | none => { db := db, spawned := none }
  else if evt.event == .delete && evt.collection == "xyz.statusphere.status" then
    { db := { db with status := db.status.filter fun r => !(r.uri == evt.uri) }
      spawned := none }
  else
    { db := db, spawned := none }

/-! ## Follow sync (follow cache module) -/

/-- One record of a `com.atproto.repo.listRecords` response page:
`record.uri` and the optional `value.subject` field. -/
structure FollowRecordEntry where
  uri : String
  subject : Option String
  deriving Repr, DecidableEq

/-- One page of a `listRecords` response. -/
structure ListRecordsPage where
  records : List FollowRecordEntry
  cursor : Option String
  deriving Repr, DecidableEq

/-- JavaScript truthiness of the `cursor` string controlling the
`do ... while (cursor)` loop: absent and empty-string cursors end the
pagination. -/
def cursorTruthy : Option String → Bool
  | none => false
  | some s => !(s == "")

/-- The pagination loop of `fetchAndCacheFollows`: consume response pages
in order, keeping `(uri, subject)` for every record whose `value.subject`
is present, until a page with a falsy cursor.  A failed request (or a
remote that never ends the pagination within the provided responses)
aborts with an error, modelling the thrown network/decode failure. -/
def collectFollows : List (Except Unit ListRecordsPage) → Except Unit (List (String × String))
  | [] => .error ()
  | .error _ :: _ => .error ()
  | .ok page :: rest =>
    let fs := page.records.filterMap fun r => r.subject.map fun s => (r.uri, s)
    if cursorTruthy page.cursor then
      match collectFollows rest with
      | .error e => .error e
      | .ok more => .ok (fs ++ more)
    else
      .ok fs

/-- A multi-row `INSERT` into `follow`: each row requires its primary key
`uri` to be absent, otherwise the statement fails (and the enclosing
transaction rolls back). -/
def insertFollowRows : List FollowRow → List FollowRow → Except Unit (List FollowRow)
  | tbl, [] => .ok tbl
  | tbl, r :: rs =>
    if tbl.any fun x => x.uri == r.uri then .error ()
    else insertFollowRows (tbl ++ [r]) rs

/-- The batch loop: one `INSERT` statement per batch, aborting on the first
failure. -/
def insertFollowBatches (tbl : List FollowRow) :
    List (List FollowRow) → Except Unit (List FollowRow)
  | [] => .ok tbl
  | b :: bs =>
    match insertFollowRows tbl b with
    | .error e => .error e
    | .ok tbl2 => insertFollowBatches tbl2 bs

/-- Structural-recursion worker for the batch slicing: `fuel` bounds the
number of slices taken; each step emits `take 500` and recurses on
`drop 500`.  With `fuel = l.length` the fuel never runs out before the
list does. -/
def chunksFuel : Nat → List FollowRow → List (List FollowRow)
  | _, [] => []
  | 0, r :: rs => [r :: rs]
  | f + 1, r :: rs => ((r :: rs).take 500) :: chunksFuel f ((r :: rs).drop 500)

/-- The `batchSize = 500` slicing of the accumulated follow list
(`for (let i = 0; i < follows.length; i += batchSize)`). -/
def chunks500 (l : List FollowRow) : List (List FollowRow) :=
  chunksFuel l.length l

/-- `fetchAndCacheFollows(did, agent, db, logger)`: paginate all follow
records, then — inside one transaction — delete every cached `follow` row
of `did` and insert the fresh set (in batches of 500), stamping every
inserted row with the single timestamp `now` taken after pagination.  Any
failure (pagination or insert) is caught, logged (`Bool` result `false`)
and leaves the database unchanged; the function never throws. -/
def fetchAndCacheFollows (did : String) (pages : List (Except Unit ListRecordsPage))
    (db : Db) (now : Nat) : Db × Bool :=
  match collectFollows pages with
  | .error _ => (db, false)
  | .ok follows =>
    match insertFollowBatches (db.follow.filter fun r => !(r.authorDid == did))
        (chunks500 (follows.map fun f => FollowRow.mk f.1 did f.2 now)) with
    | .error _ => (db, false)
    | .ok tbl => ({ db with follow := tbl }, true)

/-- `SYNC_INTERVAL_MS = 5 * 60 * 1000`. -/
def SYNC_INTERVAL_MS : Nat := 5 * 60 * 1000

/-- The `selectFrom('follow').where(authorDid).orderBy(indexedAt desc)
.limit(1)` query: the most recent `indexedAt` among the author's cached
rows, or `none` when the author has no rows. -/
def latestIndexedAt (authorDid : String) (follow : List FollowRow) : Option Nat :=
  ((follow.filter fun r => r.authorDid == authorDid).map fun r => r.indexedAt).max?

/-- `isFollowCacheStale`: no cached row means stale; otherwise stale exactly
when `Date.now() - lastSync > SYNC_INTERVAL_MS` (computed in `Int` to match
JavaScript subtraction). -/
def isFollowCacheStale (authorDid : String) (follow : List FollowRow) (now : Nat) : Bool :=
  match latestIndexedAt authorDid follow with
  | none => true
  | some t => decide ((now : Int) - (t : Int) > (SYNC_INTERVAL_MS : Int))

/-! ## Profile cache fetch (src/profile-cache.ts) -/

/-- An entry of `didDoc.service`.  `serviceEndpoint` is `some s` exactly
when the document carries a string endpoint (`typeof ... === 'string'`). -/
structure DidService where
  id : String
  type : String
  serviceEndpoint : Option String
  deriving Repr, DecidableEq

/-- A resolved DID document (only the `service` array matters here). -/
structure DidDoc where
  service : Option (List DidService)
  deriving Repr, DecidableEq

/-- A blob reference on a profile record (`avatar` / `banner`). -/
structure BlobRef where
  ref : Option String
  mimeType : Option String
  deriving Repr, DecidableEq

/-- The fields of an `app.bsky.actor.profile` record value used by the
cache. -/
structure ProfileRecordValue where
  displayName : Option String
  description : Option String
  avatar : Option BlobRef
  banner : Option BlobRef
  deriving Repr, DecidableEq

/-- The `getRecord` response value, with the `Profile.isRecord ∧
validateRecord(..).success` verdict (generated lexicon code outside the
embedded sources). -/
structure GetRecordResult where
  value : ProfileRecordValue
  valid : Bool
  deriving Repr, DecidableEq

/-- The external world one `fetchAndCacheProfile` call observes: the DID
resolution result (`none` models a failed resolution), the `getRecord`
result (`none` models both a fetch failure caught by `.catch(() =>
undefined)` and an absent `data`), and whether the storage engine accepts
the upsert. -/
structure ProfileFetchEnv where
  didDoc : Option DidDoc
  record : Option GetRecordResult
  storageOk : Bool
  deriving Repr, DecidableEq

/-- How one `fetchAndCacheProfile` call terminated; every constructor but
`cached` corresponds to a logged early return or a caught error. -/
inductive ProfileFetchOutcome where
  | noDidDoc
  | noPds
  | noRecord
  | invalidRecord
  | storageError
  | cached
  deriving Repr, DecidableEq

/-- JavaScript `x || null`: an absent or empty string becomes null. -/
def jsOrNull : Option String → Option String
  | none => none
  | some s => if s == "" then none else some s

/-- `didDoc.service?.find(s => s.id === '#atproto_pds' || s.type ===
'AtprotoPersonalDataServer')`. -/
def findPds (svcs : List DidService) : Option DidService :=
  svcs.find? fun s => s.id == "#atproto_pds" || s.type == "AtprotoPersonalDataServer"

/-- The row written by the profile upsert: every non-key column is computed
from the fetched record (`record.x || null` coalescing included). -/
def mkProfileRow (did : String) (v : ProfileRecordValue) (now : Nat) : ProfileRow :=
  { did := did
    displayName := jsOrNull v.displayName
    description := jsOrNull v.description
    avatarCid := jsOrNull (v.avatar.bind fun b => b.ref)
    avatarMimeType := jsOrNull (v.avatar.bind fun b => b.mimeType)
    bannerCid := jsOrNull (v.banner.bind fun b => b.ref)
    bannerMimeType := jsOrNull (v.banner.bind fun b => b.mimeType)
    indexedAt := now }

/-- The `insertInto('profile').values(..).onConflict(oc.column('did')
.doUpdateSet({..}))` statement: the `doUpdateSet` lists every non-key
column, so an existing row is replaced wholesale. -/
def profileUpsert (tbl : List ProfileRow) (row : ProfileRow) : List ProfileRow :=
  if tbl.any fun r => r.did == row.did then
    tbl.map fun r => if r.did == row.did then row else r
  else
    tbl ++ [row]

/-- `fetchAndCacheProfile(did, db, idResolver, logger)`: resolve the DID,
find a PDS endpoint, fetch and validate the profile record, then upsert it
keyed by DID.  Every failure branch returns the unchanged database with an
outcome tag; the whole body sits in a `try/catch`, so the function never
throws (in the embedding: it is total and always yields a pair). -/
def fetchAndCacheProfile (did : String) (env : ProfileFetchEnv) (db : Db)
    (now : Nat) : Db × ProfileFetchOutcome :=
  match env.didDoc with
  | none => (db, .noDidDoc)
  | some doc =>
    match findPds (doc.service.getD []) with
    | none => (db, .noPds)
    | some svc =>
      match svc.serviceEndpoint with
      | none => (db, .noPds)
      | some _ =>
        match env.record with
        | none => (db, .noRecord)
        | some res =>
          if res.valid then
            if env.storageOk then
              ({ db with profile := profileUpsert db.profile (mkProfileRow did res.value now) },
                .cached)
            else
              (db, .storageError)
          else
            (db, .invalidRecord)

/-- Concrete URI family used for large test inputs: the string of `n`
copies of the letter a.  Distinct lengths give distinct strings, which
keeps primary keys unique without any per-character computation. -/
def aStr (n : Nat) : String := String.mk (List.replicate n 'a')

/-! ## Helper lemmas: follow sync -/

theorem insertFollowRows_ok_eq :
    ∀ (rows tbl out : List FollowRow),
      insertFollowRows tbl rows = .ok out → out = tbl ++ rows := by
  intro rows
  induction rows with
  | nil =>
    intro tbl out h
    simp only [insertFollowRows] at h
    cases h
    simp
  | cons r rs ih =>
    intro tbl out h
    simp only [insertFollowRows] at h
    split at h
    · cases h
    · have h2 := ih (tbl ++ [r]) out h
      simp [h2]

theorem insertFollowRows_append :
    ∀ (xs ys tbl : List FollowRow),
      insertFollowRows tbl (xs ++ ys)
        = match insertFollowRows tbl xs with
          | .error e => .error e
          | .ok t => insertFollowRows t ys := by
  intro xs
  induction xs with
  | nil => intro ys tbl; rfl
  | cons x xs ih =>
    intro ys tbl
    simp only [List.cons_append, insertFollowRows]
    split
    · rfl
    · exact ih ys (tbl ++ [x])

theorem insertFollowBatches_eq_join :
    ∀ (bs : List (List FollowRow)) (tbl : List FollowRow),
      insertFollowBatches tbl bs = insertFollowRows tbl bs.flatten := by
  intro bs
  induction bs with
  | nil => intro tbl; rfl
  | cons b bs ih =>
    intro tbl
    simp only [insertFollowBatches, List.flatten_cons, insertFollowRows_append]
    cases insertFollowRows tbl b with
    | error e => rfl
    | ok t => exact ih t

theorem chunksFuel_flatten :
    ∀ (f : Nat) (l : List FollowRow), (chunksFuel f l).flatten = l := by
  intro f
  induction f with
  | zero =>
    intro l
    cases l with
    | nil => rfl
    | cons r rs => simp [chunksFuel]
  | succ f ih =>
    intro l
    cases l with
    | nil => rfl
    | cons r rs =>
      rw [chunksFuel, List.flatten_cons, ih ((r :: rs).drop 500)]
      exact List.take_append_drop 500 (r :: rs)

theorem chunks500_flatten (l : List FollowRow) : (chunks500 l).flatten = l :=
  chunksFuel_flatten l.length l

theorem insertFollowRows_of_disjoint :
    ∀ (rows tbl : List FollowRow),
      (rows.map fun r => r.uri).Nodup →
      (∀ r ∈ rows, ∀ x ∈ tbl, (x.uri == r.uri) = false) →
      insertFollowRows tbl rows = .ok (tbl ++ rows) := by
  intro rows
  induction rows with
  | nil => intro tbl _ _; simp [insertFollowRows]
  | cons r rs ih =>
    intro tbl hnd hdisj
    have hany : (tbl.any fun x => x.uri == r.uri) = false := by
      simp only [List.any_eq_false]
      intro x hx
      simp [hdisj r (by simp) x hx]
    simp only [insertFollowRows, hany, Bool.false_eq_true, if_false]
    rw [List.map_cons, List.nodup_cons] at hnd
    have := ih (tbl ++ [r]) hnd.2 ?_
    · rw [this]
      simp
    · intro r2 hr2 x hx
      rcases List.mem_append.mp hx with hx2 | hx2
      · exact hdisj r2 (by simp [hr2]) x hx2
      · have hx3 : x = r := by simpa using hx2
        subst hx3
        have hne : x.uri ≠ r2.uri := by
          intro he
          exact hnd.1 (he ▸ List.mem_map_of_mem (fun r => r.uri) hr2)
        simpa using hne

theorem fetchAndCacheFollows_ok_spec (did : String)
    (pages : List (Except Unit ListRecordsPage)) (db : Db) (now : Nat)
    (h : (fetchAndCacheFollows did pages db now).2 = true) :
    ∃ follows, collectFollows pages = .ok follows ∧
      (fetchAndCacheFollows did pages db now).1.follow
        = db.follow.filter (fun r => !(r.authorDid == did))
          ++ follows.map fun f => FollowRow.mk f.1 did f.2 now := by
  unfold fetchAndCacheFollows at h ⊢
  split at h
  · simp at h
  · next follows hc =>
    split at h
    · simp at h
    · next tbl hi =>
      refine ⟨follows, hc, ?_⟩
      simp only [hc, hi]
      rw [insertFollowBatches_eq_join, chunks500_flatten] at hi
      have h2 := insertFollowRows_ok_eq _ _ _ hi
      simp [h2]

theorem fetchAndCacheFollows_ok_of_disjoint (did : String)
    (pages : List (Except Unit ListRecordsPage)) (db : Db) (now : Nat)
    (follows : List (String × String))
    (hc : collectFollows pages = .ok follows)
    (hnd : (follows.map fun f => f.1).Nodup)
    (hdisj : ∀ x ∈ db.follow.filter (fun r => !(r.authorDid == did)),
        ∀ f ∈ follows, (x.uri == f.1) = false) :
    (fetchAndCacheFollows did pages db now).2 = true := by
  have hnd2 : ((follows.map fun f => FollowRow.mk f.1 did f.2 now).map
      fun r => r.uri).Nodup := by
    rw [List.map_map]
    exact hnd
  have hdisj2 : ∀ r ∈ follows.map fun f => FollowRow.mk f.1 did f.2 now,
      ∀ x ∈ db.follow.filter (fun r => !(r.authorDid == did)),
        (x.uri == r.uri) = false := by
    intro r hr x hx
    obtain ⟨f, hf, hfr⟩ := List.mem_map.mp hr
    rw [← hfr]
    exact hdisj x hx f hf
  have hins : insertFollowBatches (db.follow.filter fun r => !(r.authorDid == did))
      (chunks500 (follows.map fun f => FollowRow.mk f.1 did f.2 now))
      = .ok ((db.follow.filter fun r => !(r.authorDid == did))
          ++ follows.map fun f => FollowRow.mk f.1 did f.2 now) := by
    rw [insertFollowBatches_eq_join, chunks500_flatten]
    exact insertFollowRows_of_disjoint _ _ hnd2 hdisj2
  unfold fetchAndCacheFollows
  simp only [hc, hins]

theorem length_filterMap_subject (l : List FollowRecordEntry)
    (h : ∀ r ∈ l, r.subject.isSome = true) :
    (l.filterMap fun r => r.subject.map fun s => (r.uri, s)).length = l.length := by
  induction l with
  | nil => rfl
  | cons a l ih =>
    have ha := h a (List.mem_cons_self a l)
    cases hs : a.subject with
    | none => rw [hs] at ha; simp at ha
    | some s2 =>
      simp only [List.filterMap_cons, hs, Option.map_some', List.length_cons]
      rw [ih fun r hr => h r (List.mem_cons_of_mem a hr)]

theorem filterMap_subject_map (l : List Nat) (u : Nat → String) (sv : String) :
    ((l.map fun i => FollowRecordEntry.mk (u i) (some sv)).filterMap
        fun r => r.subject.map fun s => (r.uri, s))
      = l.map fun i => (u i, sv) := by
  induction l with
  | nil => rfl
  | cons a l ih => simp [List.filterMap_cons, ih]

theorem aStr_length (n : Nat) : (aStr n).length = n := by
  show (List.replicate n 'a').length = n
  exact List.length_replicate n 'a'

theorem aStr_injective : Function.Injective aStr := by
  intro i j h
  have h2 := congrArg String.length h
  rwa [aStr_length, aStr_length] at h2

theorem nodup_three_aStr_ranges :
    (((List.range 100).map fun i => aStr (i + 1))
      ++ (((List.range 100).map fun i => aStr (i + 101))
        ++ ((List.range 40).map fun i => aStr (i + 201)))).Nodup := by
  have hinj : ∀ k : Nat, Function.Injective fun i => aStr (i + k) := by
    intro k i j h
    have h2 := aStr_injective h
    omega
  have hb1 : ∀ x ∈ (List.range 100).map fun i => aStr (i + 1), x.length ≤ 100 := by
    intro x hx
    obtain ⟨i, hi, hxe⟩ := List.mem_map.mp hx
    have h3 : i < 100 := List.mem_range.mp hi
    rw [← hxe, aStr_length]
    omega
  have hb2 : ∀ x ∈ (List.range 100).map fun i => aStr (i + 101),
      101 ≤ x.length ∧ x.length ≤ 200 := by
    intro x hx
    obtain ⟨i, hi, hxe⟩ := List.mem_map.mp hx
    have h3 : i < 100 := List.mem_range.mp hi
    rw [← hxe, aStr_length]
    omega
  have hb3 : ∀ x ∈ (List.range 40).map fun i => aStr (i + 201), 201 ≤ x.length := by
    intro x hx
    obtain ⟨i, hi, hxe⟩ := List.mem_map.mp hx
    have h3 : i < 40 := List.mem_range.mp hi
    rw [← hxe, aStr_length]
    omega
  rw [List.nodup_append, List.nodup_append]
  refine ⟨List.Nodup.map (hinj 1) (List.nodup_range 100),
    ⟨List.Nodup.map (hinj 101) (List.nodup_range 100),
      List.Nodup.map (hinj 201) (List.nodup_range 40), ?_⟩, ?_⟩
  · intro a ha1 ha2
    have hl1 := (hb2 a ha1).2
    have hl2 := hb3 a ha2
    omega
  · intro a ha1 ha2
    have hl1 := hb1 a ha1
    rcases List.mem_append.mp ha2 with h4 | h4
    · have hl2 := (hb2 a h4).1
      omega
    · have hl2 := hb3 a h4
      omega

/-! ## Helper lemmas: status and profile upserts -/

theorem statusUpsert_of_absent (tbl : List StatusRow) (u a s c : String) (t : Nat)
    (hany : (tbl.any fun r => r.uri == u) = false) :
    statusUpsert tbl u a s c t = tbl ++ [⟨u, a, s, c, t⟩] := by
  simp [statusUpsert, hany]

theorem statusUpsert_append_one (tbl : List StatusRow) (u a s c : String) (t : Nat)
    (a2 s2 c2 : String) (t2 : Nat)
    (hany : (tbl.any fun r => r.uri == u) = false) :
    statusUpsert (tbl ++ [⟨u, a, s, c, t⟩]) u a2 s2 c2 t2
      = tbl ++ [⟨u, a, s2, c, t2⟩] := by
  have hmem : ∀ r ∈ tbl, (r.uri == u) = false := by
    intro r hr
    have := List.any_eq_false.mp hany r hr
    simpa using this
  have hany2 : ((tbl ++ [(⟨u, a, s, c, t⟩ : StatusRow)]).any fun r => r.uri == u) = true := by
    simp
  simp only [statusUpsert, hany2, if_true]
  rw [List.map_append]
  congr 1
  · rw [List.map_congr_left ?_]
    · exact List.map_id tbl
    · intro r hr
      simp [hmem r hr]
  · simp

theorem statusUpsert_twice (tbl : List StatusRow) (u a s c : String) (t1 t2 : Nat) :
    statusUpsert (statusUpsert tbl u a s c t1) u a s c t2
      = statusUpsert tbl u a s c t2 := by
  by_cases hany : (tbl.any fun r => r.uri == u) = true
  · have huri : ∀ r : StatusRow,
        ((if r.uri == u then { r with status := s, indexedAt := t1 } else r) : StatusRow).uri
          = r.uri := by
      intro r
      by_cases h : (r.uri == u) = true <;> simp [h]
    obtain ⟨r0, hr0, hp0⟩ := List.any_eq_true.mp hany
    have hany2 : ((tbl.map fun r =>
          if r.uri == u then { r with status := s, indexedAt := t1 } else r).any
            fun r => r.uri == u) = true := by
      apply List.any_eq_true.mpr
      refine ⟨_, List.mem_map_of_mem _ hr0, ?_⟩
      rw [huri r0]
      exact hp0
    simp only [statusUpsert, hany, hany2, if_true]
    rw [List.map_map]
    apply List.map_congr_left
    intro r _
    by_cases h : (r.uri == u) = true <;> simp [h, Function.comp]
  · have hf : (tbl.any fun r => r.uri == u) = false := by simpa using hany
    rw [statusUpsert_of_absent tbl u a s c t1 hf,
        statusUpsert_append_one tbl u a s c t1 a s c t2 hf,
        statusUpsert_of_absent tbl u a s c t2 hf]

theorem statusUpsert_filter_count (tbl : List StatusRow) (u a s c : String) (t : Nat)
    (hle : (tbl.filter fun r => r.uri == u).length ≤ 1) :
    ((statusUpsert tbl u a s c t).filter fun r => r.uri == u).length = 1 := by
  by_cases hany : (tbl.any fun r => r.uri == u) = true
  · simp only [statusUpsert, hany, if_true]
    rw [List.filter_map]
    rw [List.length_map]
    have hpf : tbl.filter ((fun r => r.uri == u) ∘ fun r =>
        if r.uri == u then { r with status := s, indexedAt := t } else r)
        = tbl.filter fun r => r.uri == u := by
      apply List.filter_congr
      intro r _
      by_cases h : (r.uri == u) = true <;> simp [h, Function.comp]
    rw [hpf]
    obtain ⟨r0, hr0, hp0⟩ := List.any_eq_true.mp hany
    have hmem : r0 ∈ tbl.filter fun r => r.uri == u := List.mem_filter.mpr ⟨hr0, hp0⟩
    have hpos : 0 < (tbl.filter fun r => r.uri == u).length :=
      List.length_pos.mpr (List.ne_nil_of_mem hmem)
    omega
  · have hf : (tbl.any fun r => r.uri == u) = false := by simpa using hany
    rw [statusUpsert_of_absent tbl u a s c t hf]
    rw [List.filter_append]
    have : tbl.filter (fun r => r.uri == u) = [] := by
      apply List.filter_eq_nil_iff.mpr
      intro r hr
      exact List.any_eq_false.mp hf r hr
    simp [this]

theorem statusUpsert_filter_existing (tbl : List StatusRow) (u a s c : String) (t : Nat)
    (r0 : StatusRow) (hf : tbl.filter (fun r => r.uri == u) = [r0]) :
    (statusUpsert tbl u a s c t).filter (fun r => r.uri == u)
      = [{ r0 with status := s, indexedAt := t }] := by
  have hmem : r0 ∈ tbl.filter fun r => r.uri == u := by rw [hf]; simp
  have hp : (r0.uri == u) = true := (List.mem_filter.mp hmem).2
  have hany : (tbl.any fun r => r.uri == u) = true :=
    List.any_eq_true.mpr ⟨r0, (List.mem_filter.mp hmem).1, hp⟩
  simp only [statusUpsert, hany, if_true]
  rw [List.filter_map]
  have hpf : tbl.filter ((fun r => r.uri == u) ∘ fun r =>
      if r.uri == u then { r with status := s, indexedAt := t } else r)
      = tbl.filter fun r => r.uri == u := by
    apply List.filter_congr
    intro r _
    by_cases h : (r.uri == u) = true <;> simp [h, Function.comp]
  rw [hpf, hf]
  have hp2 : r0.uri = u := by simpa using hp
  simp [hp2]

theorem profileUpsert_filter (tbl : List ProfileRow) (row : ProfileRow)
    (hle : (tbl.filter fun r => r.did == row.did).length ≤ 1) :
    (profileUpsert tbl row).filter (fun r => r.did == row.did) = [row] := by
  by_cases hany : (tbl.any fun r => r.did == row.did) = true
  · simp only [profileUpsert, hany, if_true]
    rw [List.filter_map]
    have hpf : tbl.filter ((fun r => r.did == row.did) ∘ fun r =>
        if r.did == row.did then row else r)
        = tbl.filter fun r => r.did == row.did := by
      apply List.filter_congr
      intro r _
      by_cases h : (r.did == row.did) = true <;> simp [h, Function.comp]
    rw [hpf]
    obtain ⟨r0, hr0, hp0⟩ := List.any_eq_true.mp hany
    have hmem : r0 ∈ tbl.filter fun r => r.did == row.did := List.mem_filter.mpr ⟨hr0, hp0⟩
    have hpos : 0 < (tbl.filter fun r => r.did == row.did).length :=
      List.length_pos.mpr (List.ne_nil_of_mem hmem)
    have hlen : (tbl.filter fun r => r.did == row.did).length = 1 := by omega
    obtain ⟨r1, hr1⟩ := List.length_eq_one.mp hlen
    rw [hr1]
    have hmem1 : r1 ∈ tbl.filter fun r => r.did == row.did := by rw [hr1]; simp
    have hp1 : (r1.did == row.did) = true := (List.mem_filter.mp hmem1).2
    have hp2 : r1.did = row.did := by simpa using hp1
    simp [hp2]
  · have hf : (tbl.any fun r => r.did == row.did) = false := by simpa using hany
    simp only [profileUpsert, hf, Bool.false_eq_true, if_false]
    rw [List.filter_append]
    have : tbl.filter (fun r => r.did == row.did) = [] := by
      apply List.filter_eq_nil_iff.mpr
      intro r hr
      exact List.any_eq_false.mp hf r hr
    simp [this]

theorem filter_author_of_kept (tbl : List FollowRow) (did : String) :
    ((tbl.filter fun r => !(r.authorDid == did)).filter fun r => r.authorDid == did) = [] := by
  rw [List.filter_filter]
  apply List.filter_eq_nil_iff.mpr
  intro r _
  cases hb : r.authorDid == did <;> simp [hb]

theorem filter_author_of_fresh (follows : List (String × String)) (did : String) (now : Nat) :
    ((follows.map fun f => FollowRow.mk f.1 did f.2 now).filter
        fun r => r.authorDid == did)
      = follows.map fun f => FollowRow.mk f.1 did f.2 now := by
  rw [List.filter_map]
  have h : follows.filter ((fun r : FollowRow => r.authorDid == did) ∘ fun f =>
      FollowRow.mk f.1 did f.2 now) = follows := by
    apply List.filter_eq_self.mpr
    intro f _
    simp [Function.comp]
  rw [h]

theorem filter_other_of_kept (tbl : List FollowRow) (did : String) :
    ((tbl.filter fun r => !(r.authorDid == did)).filter fun r => !(r.authorDid == did))
      = tbl.filter fun r => !(r.authorDid == did) := by
  apply List.filter_eq_self.mpr
  intro r hr
  exact (List.mem_filter.mp hr).2

theorem filter_other_of_fresh (follows : List (String × String)) (did : String) (now : Nat) :
    ((follows.map fun f => FollowRow.mk f.1 did f.2 now).filter
        fun r => !(r.authorDid == did)) = [] := by
  rw [List.filter_map]
  have h : follows.filter ((fun r : FollowRow => !(r.authorDid == did)) ∘ fun f =>
      FollowRow.mk f.1 did f.2 now) = [] := by
    apply List.filter_eq_nil_iff.mpr
    intro f _
    simp [Function.comp]
  rw [h]
  rfl

/-! ## Claim C1 -/

/-- C1: After a successful follow resync (`fetchAndCacheFollows`) for an
author DID, the cached `follow` rows whose `authorDid` is that DID are
exactly the records returned by the remote fetch (stamped with the sync
timestamp), and every other author's rows are untouched — in particular,
edges present only in the old snapshot are gone.  The delete-then-insert
pair executes inside one transaction, modelled here as a single transition
of the database value: either the whole replace commits or (on any error)
the database is returned unchanged, so no committed state mixes stale and
fresh edges. -/
theorem followResync_transactional_replace_exact (did : String)
    (pages : List (Except Unit ListRecordsPage)) (db : Db) (now : Nat)
    (h : (fetchAndCacheFollows did pages db now).2 = true) :
    ∃ follows, collectFollows pages = .ok follows ∧
      ((fetchAndCacheFollows did pages db now).1.follow.filter
          fun r => r.authorDid == did)
        = (follows.map fun f => FollowRow.mk f.1 did f.2 now) ∧
      ((fetchAndCacheFollows did pages db now).1.follow.filter
          fun r => !(r.authorDid == did))
        = db.follow.filter fun r => !(r.authorDid == did) := by
  obtain ⟨follows, hc, hspec⟩ := fetchAndCacheFollows_ok_spec did pages db now h
  refine ⟨follows, hc, ?_, ?_⟩
  · rw [hspec, List.filter_append, filter_author_of_kept, filter_author_of_fresh]
    rfl
  · rw [hspec, List.filter_append, filter_other_of_kept, filter_other_of_fresh]
    simp

/-- C1 witness: existing edges A→B, A→C; the fresh fetch returns A→C, A→D;
after the resync the cache for A holds exactly A→C, A→D. -/
theorem followResync_transactional_replace_exact_witness :
    ∃ follows,
      collectFollows
          [Except.ok ⟨[⟨"at://A/follow/C", some "C"⟩, ⟨"at://A/follow/D", some "D"⟩], none⟩]
        = .ok follows ∧
      ((fetchAndCacheFollows "A"
          [Except.ok ⟨[⟨"at://A/follow/C", some "C"⟩, ⟨"at://A/follow/D", some "D"⟩], none⟩]
          ⟨[], [], [⟨"at://A/follow/B", "A", "B", 0⟩, ⟨"at://A/follow/C", "A", "C", 0⟩]⟩
          7).1.follow.filter fun r => r.authorDid == "A")
        = (follows.map fun f => FollowRow.mk f.1 "A" f.2 7) ∧
      ((fetchAndCacheFollows "A"
          [Except.ok ⟨[⟨"at://A/follow/C", some "C"⟩, ⟨"at://A/follow/D", some "D"⟩], none⟩]
          ⟨[], [], [⟨"at://A/follow/B", "A", "B", 0⟩, ⟨"at://A/follow/C", "A", "C", 0⟩]⟩
          7).1.follow.filter fun r => !(r.authorDid == "A"))
        = List.filter (fun r => !(r.authorDid == "A"))
            [⟨"at://A/follow/B", "A", "B", 0⟩, ⟨"at://A/follow/C", "A", "C", 0⟩] :=
  followResync_transactional_replace_exact "A"
    [Except.ok ⟨[⟨"at://A/follow/C", some "C"⟩, ⟨"at://A/follow/D", some "D"⟩], none⟩]
    ⟨[], [], [⟨"at://A/follow/B", "A", "B", 0⟩, ⟨"at://A/follow/C", "A", "C", 0⟩]⟩
    7 (by decide)

/-! ## Claim C4 -/

/-- C4: A network or decode failure anywhere in the pagination loop aborts
the whole sync: the database (in particular the previously cached follow
rows of the author) is returned exactly as it was, and the function
returns normally with the logged-warning outcome (`false`) instead of
propagating an error. -/
theorem followSync_fetch_failure_leaves_cache (did : String)
    (pages : List (Except Unit ListRecordsPage)) (db : Db) (now : Nat)
    (e : Unit) (h : collectFollows pages = .error e) :
    fetchAndCacheFollows did pages db now = (db, false) := by
  unfold fetchAndCacheFollows
  rw [h]

/-- C4 witness: the first page request fails; the previously cached edge
survives untouched. -/
theorem followSync_fetch_failure_leaves_cache_witness :
    fetchAndCacheFollows "A" [Except.error ()]
        ⟨[], [], [⟨"at://A/follow/B", "A", "B", 0⟩]⟩ 99
      = (⟨[], [], [⟨"at://A/follow/B", "A", "B", 0⟩]⟩, false) :=
  followSync_fetch_failure_leaves_cache "A" [Except.error ()]
    ⟨[], [], [⟨"at://A/follow/B", "A", "B", 0⟩]⟩ 99 () rfl

/-! ## Claim C9 -/

/-- C9: For an author with cached follow rows (`latestIndexedAt` is
`some t`), `isFollowCacheStale` reports stale exactly when the most recent
`indexedAt` lies more than five minutes (5 * 60 * 1000 ms) in the past. -/
theorem followCacheStale_iff_older_than_5min (authorDid : String)
    (follow : List FollowRow) (now t : Nat)
    (h : latestIndexedAt authorDid follow = some t) :
    isFollowCacheStale authorDid follow now = true
      ↔ (now : Int) - (t : Int) > 5 * 60 * 1000 := by
  simp [isFollowCacheStale, h, SYNC_INTERVAL_MS]

/-- C9 witness: a cache 6 minutes old is stale, one 4 minutes old is not. -/
theorem followCacheStale_iff_older_than_5min_witness :
    isFollowCacheStale "A" [⟨"u", "A", "B", 0⟩] 360000 = true
    ∧ isFollowCacheStale "A" [⟨"u", "A", "B", 0⟩] 240000 = false := by
  constructor
  · exact (followCacheStale_iff_older_than_5min "A" [⟨"u", "A", "B", 0⟩] 360000 0
      (by rfl)).mpr (by norm_num)
  · apply Bool.eq_false_iff.mpr
    intro hb
    have h2 := (followCacheStale_iff_older_than_5min "A" [⟨"u", "A", "B", 0⟩] 240000 0
      (by rfl)).mp hb
    norm_num at h2

/-! ## Claim C10 -/

/-- C10: Every follow row written by one successful `fetchAndCacheFollows`
run carries the identical `indexedAt` (the single timestamp taken after
pagination and before the transactional replace), so all cached rows of the
author share one `indexedAt`; and an author with zero cached follow rows is
always reported stale. -/
theorem followSync_single_indexedAt_and_empty_stale (did : String)
    (pages : List (Except Unit ListRecordsPage)) (db : Db) (now : Nat)
    (h : (fetchAndCacheFollows did pages db now).2 = true) :
    (∀ r ∈ (fetchAndCacheFollows did pages db now).1.follow,
        r.authorDid = did → r.indexedAt = now)
    ∧ ∀ (a : String) (tbl : List FollowRow) (n : Nat),
        (tbl.filter fun r => r.authorDid == a) = [] →
        isFollowCacheStale a tbl n = true := by
  constructor
  · obtain ⟨follows, hc, hspec⟩ := fetchAndCacheFollows_ok_spec did pages db now h
    intro r hr hauthor
    rw [hspec] at hr
    rcases List.mem_append.mp hr with h2 | h2
    · have h3 := (List.mem_filter.mp h2).2
      simp [hauthor] at h3
    · obtain ⟨f, _, hfr⟩ := List.mem_map.mp h2
      rw [← hfr]
  · intro a tbl n hfil
    simp [isFollowCacheStale, latestIndexedAt, hfil]

/-- C10 witness: a successful two-edge sync stamps both rows with the one
timestamp 7, and an author with an empty cache is stale. -/
theorem followSync_single_indexedAt_and_empty_stale_witness :
    (∀ r ∈ (fetchAndCacheFollows "A"
        [Except.ok ⟨[⟨"u1", some "C"⟩, ⟨"u2", some "D"⟩], none⟩]
        ⟨[], [], []⟩ 7).1.follow,
      r.authorDid = "A" → r.indexedAt = 7)
    ∧ ∀ (a : String) (tbl : List FollowRow) (n : Nat),
        (tbl.filter fun r => r.authorDid == a) = [] →
        isFollowCacheStale a tbl n = true :=
  followSync_single_indexedAt_and_empty_stale "A"
    [Except.ok ⟨[⟨"u1", some "C"⟩, ⟨"u2", some "D"⟩], none⟩]
    ⟨[], [], []⟩ 7 (by decide)

/-! ## Claim C2 -/

/-- C2 counterexample: create(v1) with status "happy", update(v2) with
status "sad", then a duplicate-redelivered create(v1).  The upsert's
`doUpdateSet` overwrites `status` on conflict, so the redelivered create
regresses the row back to v1's status "happy" — not v2's "sad" as the claim
states. -/
theorem redelivered_create_regresses_counterexample :
    ((handleEvent
        ((handleEvent
            ((handleEvent ⟨[], [], []⟩
                ⟨.create, "did:plc:a", "xyz.statusphere.status", "u1",
                  some ⟨"happy", "c1", true⟩⟩ 1).db)
            ⟨.update, "did:plc:a", "xyz.statusphere.status", "u1",
              some ⟨"sad", "c2", true⟩⟩ 2).db)
        ⟨.create, "did:plc:a", "xyz.statusphere.status", "u1",
          some ⟨"happy", "c1", true⟩⟩ 3).db).status
      = [⟨"u1", "did:plc:a", "happy", "c1", 3⟩]
    ∧ ("happy" : String) ≠ "sad" := by
  exact ⟨rfl, by decide⟩

/-- C2 (amended): applying create(v1), then update(v2), then a
duplicate-redelivered create(v1) for the same URI leaves the row at v1's
`status` with a refreshed `indexedAt` — the last write wins and the
redelivery regresses the status field; only `authorDid` and `createdAt`
keep the values of the first insert. -/
theorem redelivered_create_last_write_wins (db : Db)
    (did uri s1 c1 s2 c2 : String) (t1 t2 t3 : Nat)
    (hfresh : (db.status.any fun r => r.uri == uri) = false) :
    ((handleEvent
        ((handleEvent
            ((handleEvent db
                ⟨.create, did, "xyz.statusphere.status", uri, some ⟨s1, c1, true⟩⟩ t1).db)
            ⟨.update, did, "xyz.statusphere.status", uri, some ⟨s2, c2, true⟩⟩ t2).db)
        ⟨.create, did, "xyz.statusphere.status", uri, some ⟨s1, c1, true⟩⟩ t3).db).status
      = db.status ++ [⟨uri, did, s1, c1, t3⟩] := by
  simp only [handleEvent]
  simp only [beq_self_eq_true, Bool.true_or, Bool.or_true, Bool.and_true, if_true,
    Bool.true_and, reduceCtorEq, reduceIte]
  rw [statusUpsert_of_absent db.status uri did s1 c1 t1 hfresh,
    statusUpsert_append_one db.status uri did s1 c1 t1 did s2 c2 t2 hfresh,
    statusUpsert_append_one db.status uri did s2 c1 t2 did s1 c1 t3 hfresh]

/-- C2 (amended) witness: the concrete happy/sad run ends at status
"happy" (v1) with indexedAt 3. -/
theorem redelivered_create_last_write_wins_witness :
    ((handleEvent
        ((handleEvent
            ((handleEvent ⟨[], [], []⟩
                ⟨.create, "did:plc:a", "xyz.statusphere.status", "u1",
                  some ⟨"happy", "c1", true⟩⟩ 1).db)
            ⟨.update, "did:plc:a", "xyz.statusphere.status", "u1",
              some ⟨"sad", "c2", true⟩⟩ 2).db)
        ⟨.create, "did:plc:a", "xyz.statusphere.status", "u1",
          some ⟨"happy", "c1", true⟩⟩ 3).db).status
      = [] ++ [⟨"u1", "did:plc:a", "happy", "c1", 3⟩] :=
  redelivered_create_last_write_wins ⟨[], [], []⟩ "did:plc:a" "u1" "happy" "c1"
    "sad" "c2" 1 2 3 (by decide)

/-! ## Claim C3 -/

/-- C3: Applying the same valid status create event twice (at times `t1`
then `t2`) leaves the status table exactly as applying it once (at `t2`):
identical rows, the only difference against the first application being the
refreshed `indexedAt`; and the result has exactly one row for that URI
(given the table held at most one row for the URI, as the primary key
guarantees). -/
theorem create_event_idempotent (db : Db) (evt : Event)
    (rec : StatusRecordPayload) (t1 t2 : Nat)
    (hrec : evt.record = some rec) (hvalid : rec.valid = true)
    (hev : evt.event = .create)
    (hcol : evt.collection = "xyz.statusphere.status")
    (hle : (db.status.filter fun r => r.uri == evt.uri).length ≤ 1) :
    ((handleEvent ((handleEvent db evt t1).db) evt t2).db).status
      = ((handleEvent db evt t2).db).status
    ∧ (((handleEvent ((handleEvent db evt t1).db) evt t2).db).status.filter
        (fun r => r.uri == evt.uri)).length = 1 := by
  have hmain : ((handleEvent ((handleEvent db evt t1).db) evt t2).db).status
      = ((handleEvent db evt t2).db).status := by
    simp only [handleEvent, hev, hrec, hcol, hvalid, beq_self_eq_true, Bool.true_or,
      Bool.and_true, if_true]
    exact statusUpsert_twice db.status evt.uri evt.did rec.status rec.createdAt t1 t2
  refine ⟨hmain, ?_⟩
  rw [hmain]
  simp only [handleEvent, hev, hrec, hcol, hvalid, beq_self_eq_true, Bool.true_or,
    Bool.and_true, if_true]
  exact statusUpsert_filter_count db.status evt.uri evt.did rec.status rec.createdAt t2 hle

/-- C3 witness: the same create event applied twice on an empty cache. -/
theorem create_event_idempotent_witness :
    ((handleEvent ((handleEvent ⟨[], [], []⟩
        ⟨.create, "did:plc:a", "xyz.statusphere.status", "u1",
          some ⟨"happy", "c1", true⟩⟩ 1).db)
        ⟨.create, "did:plc:a", "xyz.statusphere.status", "u1",
          some ⟨"happy", "c1", true⟩⟩ 2).db).status
      = ((handleEvent ⟨[], [], []⟩
        ⟨.create, "did:plc:a", "xyz.statusphere.status", "u1",
          some ⟨"happy", "c1", true⟩⟩ 2).db).status
    ∧ (((handleEvent ((handleEvent ⟨[], [], []⟩
        ⟨.create, "did:plc:a", "xyz.statusphere.status", "u1",
          some ⟨"happy", "c1", true⟩⟩ 1).db)
        ⟨.create, "did:plc:a", "xyz.statusphere.status", "u1",
          some ⟨"happy", "c1", true⟩⟩ 2).db).status.filter
        (fun r => r.uri == "u1")).length = 1 :=
  create_event_idempotent ⟨[], [], []⟩
    ⟨.create, "did:plc:a", "xyz.statusphere.status", "u1", some ⟨"happy", "c1", true⟩⟩
    ⟨"happy", "c1", true⟩ 1 2 rfl rfl rfl rfl (by decide)

/-! ## Claim C5 -/

/-- C5: A create or update event whose record fails schema validation
produces zero cache mutations (the whole database value is unchanged) and
no background work; the handler returns normally, so the subscriber
continues with the next event. -/
theorem invalid_record_no_mutation (db : Db) (evt : Event)
    (rec : StatusRecordPayload) (now : Nat)
    (hwrite : evt.event = .create ∨ evt.event = .update)
    (hrec : evt.record = some rec) (hinvalid : rec.valid = false) :
    handleEvent db evt now = ⟨db, none⟩ := by
  have hcond : (evt.event == EventKind.create || evt.event == EventKind.update) = true := by
    rcases hwrite with h | h <;> simp [h]
  simp [handleEvent, hcond, hrec, hinvalid]

/-- C5 witness: an invalid create event leaves a populated database
untouched. -/
theorem invalid_record_no_mutation_witness :
    handleEvent ⟨[⟨"u0", "a", "s", "c", 0⟩], [], []⟩
        ⟨.create, "did:plc:a", "xyz.statusphere.status", "u1", some ⟨"x", "c1", false⟩⟩ 5
      = ⟨⟨[⟨"u0", "a", "s", "c", 0⟩], [], []⟩, none⟩ :=
  invalid_record_no_mutation ⟨[⟨"u0", "a", "s", "c", 0⟩], [], []⟩
    ⟨.create, "did:plc:a", "xyz.statusphere.status", "u1", some ⟨"x", "c1", false⟩⟩
    ⟨"x", "c1", false⟩ 5 (Or.inl rfl) rfl rfl

/-! ## Claim C6 -/

/-- C6: `fetchAndCacheProfile` never throws — in the embedding it is a
total function always returning a database/outcome pair, mirroring the
source's all-enclosing `try/catch` — and on every failure path (failed DID
resolution, no compatible PDS service, absent profile record,
schema-invalid record, storage error) it returns the database unchanged:
no profile row is written. -/
theorem profileFetch_failure_paths_write_nothing (did : String)
    (env : ProfileFetchEnv) (db : Db) (now : Nat)
    (h : (fetchAndCacheProfile did env db now).2 ≠ .cached) :
    (fetchAndCacheProfile did env db now).1 = db := by
  rcases env with ⟨dd, rec, sOk⟩
  cases dd with
  | none => rfl
  | some doc =>
    cases hm : findPds (doc.service.getD []) with
    | none => simp [fetchAndCacheProfile, hm]
    | some svc =>
      cases hse : svc.serviceEndpoint with
      | none => simp [fetchAndCacheProfile, hm, hse]
      | some ep =>
        cases rec with
        | none => simp [fetchAndCacheProfile, hm, hse]
        | some res =>
          cases hv : res.valid with
          | false => simp [fetchAndCacheProfile, hm, hse, hv]
          | true =>
            cases sOk with
            | false => simp [fetchAndCacheProfile, hm, hse, hv]
            | true =>
              exfalso
              apply h
              simp [fetchAndCacheProfile, hm, hse, hv]

/-- C6 witness: a DID whose resolution fails produces a no-op. -/
theorem profileFetch_failure_paths_write_nothing_witness :
    (fetchAndCacheProfile "did:plc:x" ⟨none, none, true⟩
        ⟨[], [⟨"did:plc:y", some "Y", none, none, none, none, none, 3⟩], []⟩ 5).1
      = ⟨[], [⟨"did:plc:y", some "Y", none, none, none, none, none, 3⟩], []⟩ :=
  profileFetch_failure_paths_write_nothing "did:plc:x" ⟨none, none, true⟩
    ⟨[], [⟨"did:plc:y", some "Y", none, none, none, none, none, 3⟩], []⟩ 5 (by decide)

/-! ## Claim C7 -/

/-- C7 counterexample: the status upsert on an existing URI does NOT
overwrite `authorDid` and `createdAt` — its `doUpdateSet` lists only
`status` and `indexedAt`.  Upserting over an existing row with a different
author and createdAt keeps the old values of those two columns. -/
theorem status_upsert_not_full_row_counterexample :
    ((handleEvent ⟨[⟨"u1", "did:plc:old", "s0", "c0", 0⟩], [], []⟩
        ⟨.create, "did:plc:new", "xyz.statusphere.status", "u1",
          some ⟨"s1", "c1", true⟩⟩ 9).db).status
      = [⟨"u1", "did:plc:old", "s1", "c0", 9⟩]
    ∧ ("did:plc:old" : String) ≠ "did:plc:new"
    ∧ ("c0" : String) ≠ "c1" := by
  exact ⟨rfl, by decide, by decide⟩

/-- C7 (amended): the profile upsert has full-row replacement semantics —
when the key exists, the stored row for the key becomes exactly the new
row (every non-key column overwritten); the status upsert instead
overwrites only `status` and `indexedAt`, preserving the existing row's
`authorDid` and `createdAt`; when the key is absent, both insert the full
new row. -/
theorem upsert_column_semantics (ptbl : List ProfileRow) (prow : ProfileRow)
    (stbl : List StatusRow) (u a s c : String) (t : Nat) (r0 : StatusRow) :
    ((ptbl.filter fun r => r.did == prow.did).length ≤ 1 →
      (profileUpsert ptbl prow).filter (fun r => r.did == prow.did) = [prow])
    ∧ ((stbl.filter fun r => r.uri == u) = [r0] →
      (statusUpsert stbl u a s c t).filter (fun r => r.uri == u)
        = [{ r0 with status := s, indexedAt := t }])
    ∧ ((stbl.any fun r => r.uri == u) = false →
      statusUpsert stbl u a s c t = stbl ++ [⟨u, a, s, c, t⟩]) :=
  ⟨fun h => profileUpsert_filter ptbl prow h,
   fun h => statusUpsert_filter_existing stbl u a s c t r0 h,
   fun h => statusUpsert_of_absent stbl u a s c t h⟩

/-- C7 (amended) witness: a profile upsert over an existing DID replaces
every non-key column; a status upsert over an existing URI keeps
`authorDid` and `createdAt` while refreshing `status` and `indexedAt`; a
status upsert on a fresh URI inserts the full row. -/
theorem upsert_column_semantics_witness :
    ((profileUpsert [⟨"d1", some "Old", none, none, none, none, none, 0⟩]
        ⟨"d1", some "New", some "bio", some "cidA", some "image/png", none, none, 9⟩).filter
      (fun r => r.did == "d1")
        = [⟨"d1", some "New", some "bio", some "cidA", some "image/png", none, none, 9⟩])
    ∧ ((statusUpsert [⟨"u1", "did:plc:old", "s0", "c0", 0⟩] "u1" "did:plc:new" "s1" "c1" 9).filter
        (fun r => r.uri == "u1")
          = [⟨"u1", "did:plc:old", "s1", "c0", 9⟩])
    ∧ statusUpsert [] "u2" "a2" "s2" "c2" 4 = [] ++ [⟨"u2", "a2", "s2", "c2", 4⟩] := by
  refine ⟨?_, ?_, ?_⟩
  · exact (upsert_column_semantics [⟨"d1", some "Old", none, none, none, none, none, 0⟩]
      ⟨"d1", some "New", some "bio", some "cidA", some "image/png", none, none, 9⟩
      [] "u2" "a2" "s2" "c2" 4 ⟨"u2", "a2", "s2", "c2", 4⟩).1 (by decide)
  · exact (upsert_column_semantics []
      ⟨"d1", some "New", some "bio", some "cidA", some "image/png", none, none, 9⟩
      [⟨"u1", "did:plc:old", "s0", "c0", 0⟩] "u1" "did:plc:new" "s1" "c1" 9
      ⟨"u1", "did:plc:old", "s0", "c0", 0⟩).2.1 (by decide)
  · exact (upsert_column_semantics []
      ⟨"d1", some "New", some "bio", some "cidA", some "image/png", none, none, 9⟩
      [] "u2" "a2" "s2" "c2" 4 ⟨"u2", "a2", "s2", "c2", 4⟩).2.2 (by decide)

/-! ## Claim C8 -/

/-- C8: When the remote follow collection is split across three pages of
100, 100 and 40 records (every record carrying a subject, the first two
pages carrying a continuation cursor, the last one not),
`fetchAndCacheFollows` follows the cursor to the end and the final cached
edge count for the author is exactly 240. -/
theorem followSync_pagination_240 (did : String) (db : Db) (now : Nat)
    (p1 p2 p3 : ListRecordsPage)
    (h1 : p1.records.length = 100) (h2 : p2.records.length = 100)
    (h3 : p3.records.length = 40)
    (hs1 : ∀ r ∈ p1.records, r.subject.isSome = true)
    (hs2 : ∀ r ∈ p2.records, r.subject.isSome = true)
    (hs3 : ∀ r ∈ p3.records, r.subject.isSome = true)
    (hc1 : cursorTruthy p1.cursor = true) (hc2 : cursorTruthy p2.cursor = true)
    (hc3 : cursorTruthy p3.cursor = false)
    (hok : (fetchAndCacheFollows did [.ok p1, .ok p2, .ok p3] db now).2 = true) :
    ((fetchAndCacheFollows did [.ok p1, .ok p2, .ok p3] db now).1.follow.filter
        fun r => r.authorDid == did).length = 240 := by
  have hcoll : collectFollows [.ok p1, .ok p2, .ok p3]
      = .ok ((p1.records.filterMap fun r => r.subject.map fun s => (r.uri, s))
          ++ ((p2.records.filterMap fun r => r.subject.map fun s => (r.uri, s))
            ++ (p3.records.filterMap fun r => r.subject.map fun s => (r.uri, s)))) := by
    simp only [collectFollows, hc1, hc2, hc3, if_true, Bool.false_eq_true, if_false]
  obtain ⟨follows, hc, hspec⟩ := fetchAndCacheFollows_ok_spec did _ db now hok
  rw [hcoll] at hc
  injection hc with hfo
  subst hfo
  rw [hspec, List.filter_append, filter_author_of_kept, filter_author_of_fresh]
  simp only [List.nil_append, List.length_map, List.length_append]
  rw [length_filterMap_subject p1.records hs1, length_filterMap_subject p2.records hs2,
    length_filterMap_subject p3.records hs3, h1, h2, h3]

/-- C8 witness: a concrete remote with 240 distinct follow records split
100/100/40 across three pages yields a cached edge count of exactly 240. -/
theorem followSync_pagination_240_witness :
    ((fetchAndCacheFollows "W"
        [.ok ⟨(List.range 100).map fun i => FollowRecordEntry.mk (aStr (i + 1)) (some "s"),
            some "cur"⟩,
         .ok ⟨(List.range 100).map fun i => FollowRecordEntry.mk (aStr (i + 101)) (some "s"),
            some "cur"⟩,
         .ok ⟨(List.range 40).map fun i => FollowRecordEntry.mk (aStr (i + 201)) (some "s"),
            none⟩]
        ⟨[], [], []⟩ 7).1.follow.filter fun r => r.authorDid == "W").length = 240 := by
  have hcur : cursorTruthy (some "cur") = true := rfl
  have hnone : cursorTruthy none = false := rfl
  have hcW : collectFollows
      [.ok ⟨(List.range 100).map fun i => FollowRecordEntry.mk (aStr (i + 1)) (some "s"),
          some "cur"⟩,
       .ok ⟨(List.range 100).map fun i => FollowRecordEntry.mk (aStr (i + 101)) (some "s"),
          some "cur"⟩,
       .ok ⟨(List.range 40).map fun i => FollowRecordEntry.mk (aStr (i + 201)) (some "s"),
          none⟩]
      = .ok (((List.range 100).map fun i => (aStr (i + 1), "s"))
          ++ (((List.range 100).map fun i => (aStr (i + 101), "s"))
            ++ ((List.range 40).map fun i => (aStr (i + 201), "s")))) := by
    simp only [collectFollows, hcur, hnone, if_true, Bool.false_eq_true, if_false,
      filterMap_subject_map]
  have hndW : ((((List.range 100).map fun i => (aStr (i + 1), "s"))
      ++ (((List.range 100).map fun i => (aStr (i + 101), "s"))
        ++ ((List.range 40).map fun i => (aStr (i + 201), "s")))).map
          fun f => f.1).Nodup := by
    have hcomp : ((((List.range 100).map fun i => (aStr (i + 1), "s"))
        ++ (((List.range 100).map fun i => (aStr (i + 101), "s"))
          ++ ((List.range 40).map fun i => (aStr (i + 201), "s")))).map
            fun f => f.1)
        = ((List.range 100).map fun i => aStr (i + 1))
          ++ (((List.range 100).map fun i => aStr (i + 101))
            ++ ((List.range 40).map fun i => aStr (i + 201))) := by
      simp only [List.map_append, List.map_map]
      rfl
    rw [hcomp]
    exact nodup_three_aStr_ranges
  apply followSync_pagination_240
  · simp
  · simp
  · simp
  · intro r hr
    obtain ⟨i, _, hre⟩ := List.mem_map.mp hr
    rw [← hre]
    rfl
  · intro r hr
    obtain ⟨i, _, hre⟩ := List.mem_map.mp hr
    rw [← hre]
    rfl
  · intro r hr
    obtain ⟨i, _, hre⟩ := List.mem_map.mp hr
    rw [← hre]
    rfl
  · exact hcur
  · exact hcur
  · rfl
  · apply fetchAndCacheFollows_ok_of_disjoint "W" _ ⟨[], [], []⟩ 7 _ hcW hndW
    intro x hx f hf
    simp at hx

end Statusphere
